import Mathlib

/-!
Shallow embedding of the gaze detection pipeline of this repository
(`src/main.py`, class `GazeDetection`, method `detect`).

External collaborators (landmark provider, pose solver, pupil locator) are
passed as function parameters; everything the `detect` method itself computes
is embedded below: the facing classifier, the per-face loop with its
unguarded ratio division, the dominant-face selection, the crop rectangle and
the steering command.  Python floats are modelled as rationals; Python `int()`
truncation and `round(x, 2)` are modelled explicitly.
-/

/-- Module-level constant `EYE_RATIO_MULTIPLIER = 100` of `main.py`. -/
def EYE_RATIO_MULTIPLIER : ℚ := 100

/-- Module-level constant `GAZE_FACING_SENSIBILITY = 5` of `main.py`. -/
def GAZE_FACING_SENSIBILITY : ℚ := 5

/-- Module-level constant `FACE_FACING_SENSIBILITY = 20` of `main.py`
(default of the `face_facing_sensibility` configuration field). -/
def FACE_FACING_SENSIBILITY : ℚ := 20

/-- Python `int()` applied to a rational: truncation toward zero. -/
def pyint (q : ℚ) : ℤ := if 0 ≤ q then ⌊q⌋ else -⌊-q⌋

/-- Python `round` of a rational to the nearest integer, halves to even. -/
def roundHalfEven (q : ℚ) : ℤ :=
  if q - ⌊q⌋ < 1/2 then ⌊q⌋
  else if 1/2 < q - ⌊q⌋ then ⌊q⌋ + 1
  else if ⌊q⌋ % 2 = 0 then ⌊q⌋ else ⌊q⌋ + 1

/-- Python `round(q, 2)`: rounding to two decimal places. -/
def roundTo2 (q : ℚ) : ℚ := (roundHalfEven (q * 100) : ℚ) / 100

/-- Bounding box `(x, y, w, h)` of a detected face (`k.BOX`). -/
structure Box where
  x : ℤ
  y : ℤ
  w : ℤ
  h : ℤ
deriving DecidableEq

/-- A face record as produced by the landmark provider: the named landmarks
`detect` reads, each an integer pixel point, plus the bounding box. -/
structure FaceRec where
  nose : ℤ × ℤ
  chin : ℤ × ℤ
  eye_l_out : ℤ × ℤ
  eye_l_in : ℤ × ℤ
  eye_l_top : ℤ × ℤ
  eye_l_bottom : ℤ × ℤ
  eye_r_out : ℤ × ℤ
  eye_r_in : ℤ × ℤ
  eye_r_top : ℤ × ℤ
  eye_r_bottom : ℤ × ℤ
  mouth_l : ℤ × ℤ
  mouth_r : ℤ × ℤ
  box : Box
deriving DecidableEq

/-- A default face record (stands in for Python's indexing, which in the
code is only ever performed with an in-range index). -/
def dfltFace : FaceRec :=
  ⟨(0, 0), (0, 0), (0, 0), (0, 0), (0, 0), (0, 0), (0, 0), (0, 0), (0, 0),
   (0, 0), (0, 0), (0, 0), ⟨0, 0, 0, 0⟩⟩

/-- Construction-time configuration of `GazeDetection` (the fields `detect`
reads).  `pupil_detection_on` models `self.pupil_detection != None`; the
crop paddings are the tuple `(top, right, bottom, left)`. -/
structure Config where
  face_facing_sensibility : ℚ
  pupil_detection_on : Bool
  eye_frame_padding_h : ℤ
  eye_frame_padding_v : ℤ
  print_on_serial : Bool
  serial_writing_step : ℚ
  crop_frame : Bool
  pad_top : ℚ
  pad_right : ℚ
  pad_bottom : ℚ
  pad_left : ℚ

/-- Per-face outcome: the two facing booleans plus the `saved_info` fields
(`pitch`, `yaw`, `roll` always; `l_eye`, `r_eye` when pupil detection ran). -/
structure FaceOut where
  pitch : ℚ
  yaw : ℚ
  roll : ℚ
  face_facing : Bool
  gaze_facing : Bool
  l_eye : Option (ℤ × ℤ)
  r_eye : Option (ℤ × ℤ)
deriving DecidableEq

/-- Result of one `detect` call: the returned `gaze_facing` boolean, the
`saved_info` record (of the last processed face; `none` when no face), the
crop rectangle rows/columns (`none` when cropping is disabled or no face),
and the steering command written on serial (`none` when nothing is written). -/
structure DetectRes where
  gaze_facing : Bool
  saved_info : Option FaceOut
  crop_rows : Option (ℤ × ℤ)
  crop_cols : Option (ℤ × ℤ)
  steer : Option ℚ
deriving DecidableEq

/-- Lines 163-166 of `main.py`: `face_facing` starts `False` and becomes
`True` exactly when `abs(pitch)` and `abs(yaw)` are both below the
configured sensibility. -/
def faceFacingOf (sensibility pitch yaw : ℚ) : Bool :=
  if |pitch| < sensibility ∧ |yaw| < sensibility then true else false

/-- Lines 168 and 205-213 of `main.py`: `gaze_facing` is initialised to
`face_facing`; when pupil ratios are available it is overwritten by the
near-frontal test (`max` of absolute ratios against sensibility divided by
`EYE_RATIO_MULTIPLIER`) or by the turned-head tests on the near-side eye. -/
def gazeFacingOf (sensibility pitch yaw rl rr : ℚ) : Bool :=
  let ff := faceFacingOf sensibility pitch yaw
  if ff then
    if max (|rl|) (|rr|) < sensibility / EYE_RATIO_MULTIPLIER then true else false
  else if yaw < 0 ∧ abs (2 * |rl| * EYE_RATIO_MULTIPLIER - |yaw|) < GAZE_FACING_SENSIBILITY then
    true
  else if 0 < yaw ∧ abs (2 * |rr| * EYE_RATIO_MULTIPLIER - |yaw|) < GAZE_FACING_SENSIBILITY then
    true
  else ff

/-- One iteration of the per-face loop of `detect` (lines 144-213), without
the biggest-face bookkeeping.  `pose` abstracts the PnP solver; `pupilL` and
`pupilR` abstract the pupil locator on the two eye crops, returning
crop-local pixel coordinates.  The pupil ratio computation divides by the
difference of the eye corner x-coordinates (lines 199-202); a zero
denominator is Python's `ZeroDivisionError`, modelled as `Except.error`. -/
def processFace (cfg : Config) (pose : FaceRec → ℚ × ℚ × ℚ)
    (pupilL pupilR : FaceRec → ℤ × ℤ) (face : FaceRec) : Except Unit FaceOut :=
  let pyr := pose face
  let pitch := pyr.1
  let yaw := pyr.2.1
  let roll := pyr.2.2
  let ff := faceFacingOf cfg.face_facing_sensibility pitch yaw
  if cfg.pupil_detection_on then
    let pl := pupilL face
    let pr := pupilR face
    let pupil_l_x := face.eye_l_in.1 - cfg.eye_frame_padding_h + pl.1
    let pupil_l_y := face.eye_l_top.2 - cfg.eye_frame_padding_v + pl.2
    let pupil_r_x := face.eye_r_out.1 - cfg.eye_frame_padding_h + pr.1
    let pupil_r_y := face.eye_r_top.2 - cfg.eye_frame_padding_v + pr.2
    if face.eye_l_out.1 - face.eye_l_in.1 = 0 then .error ()
    else if face.eye_r_in.1 - face.eye_r_out.1 = 0 then .error ()
    else
      let rl := roundTo2 (((pupil_l_x - face.eye_l_in.1 : ℤ) : ℚ) /
        ((face.eye_l_out.1 - face.eye_l_in.1 : ℤ) : ℚ) - 1/2)
      let rr := roundTo2 (((pupil_r_x - face.eye_r_out.1 : ℤ) : ℚ) /
        ((face.eye_r_in.1 - face.eye_r_out.1 : ℤ) : ℚ) - 1/2)
      .ok ⟨pitch, yaw, roll, ff,
        gazeFacingOf cfg.face_facing_sensibility pitch yaw rl rr,
        some (pupil_l_x, pupil_l_y), some (pupil_r_x, pupil_r_y)⟩
  else
    .ok ⟨pitch, yaw, roll, ff, ff, none, none⟩

/-- The biggest-face bookkeeping of the loop (lines 215-219): fold over the
areas with their indices, keeping `(biggest_face_index, biggest_face_area)`,
updated only on a strict increase; initial state `(0, 0)`. -/
def selectBiggest : List ℤ → ℕ → ℕ × ℤ → ℕ × ℤ
  | [], _, st => st
  | a :: rest, i, st =>
      selectBiggest rest (i + 1) (if st.2 < a then (i, a) else st)

/-- Index of the biggest face (`biggest_face_index` after the loop), from
the list of bounding-box areas in iteration order. -/
def biggest_face_index (areas : List ℤ) : ℕ := (selectBiggest areas 0 (0, 0)).1

/-- Bounding-box areas `w*h` of the faces, in iteration order. -/
def faceAreas (faces : List FaceRec) : List ℤ :=
  faces.map (fun f => f.box.w * f.box.h)

/-- The whole per-face loop: processes faces in order, threading the
biggest-face state and the (overwritten each iteration) last face output.
A `ZeroDivisionError` in any face aborts the loop, as the code has no
handler around the loop body. -/
def runFaces (cfg : Config) (pose : FaceRec → ℚ × ℚ × ℚ)
    (pupilL pupilR : FaceRec → ℤ × ℤ) :
    List FaceRec → ℕ → ℕ × ℤ → Option FaceOut →
      Except Unit ((ℕ × ℤ) × Option FaceOut)
  | [], _, st, last => .ok (st, last)
  | face :: rest, i, st, _ =>
      match processFace cfg pose pupilL pupilR face with
      | .error e => .error e
      | .ok out =>
          runFaces cfg pose pupilL pupilR rest (i + 1)
            (if st.2 < face.box.w * face.box.h
             then (i, face.box.w * face.box.h) else st)
            (some out)

/-- Lines 296-303 of `main.py`: the steering write.  With
`face_center = fx + fw/2` and `frame_center = frame_w/2`, write the negated
step when the face center is left of `frame_center - 200`, the step when it
is right of `frame_center + 200`, nothing otherwise (and nothing at all when
serial printing is off). -/
def steerCommand (printOn : Bool) (step : ℚ) (frame_w fx fw : ℤ) : Option ℚ :=
  if printOn then
    if (fx : ℚ) + (fw : ℚ) / 2 < (frame_w : ℚ) / 2 - 200 then some (-step)
    else if (frame_w : ℚ) / 2 + 200 < (fx : ℚ) + (fw : ℚ) / 2 then some step
    else none
  else none

/-- Row bounds of the crop (line 307): `[max(int(fy - fh*pad_top), 0),
min(fy + int(fh*(1 + pad_bottom)), frame_h)]`. -/
def cropRows (padTop padBottom : ℚ) (frame_h fy fh : ℤ) : ℤ × ℤ :=
  (max (pyint ((fy : ℚ) - (fh : ℚ) * padTop)) 0,
   min (fy + pyint ((fh : ℚ) * (1 + padBottom))) frame_h)

/-- Column bounds of the crop (line 308): `[max(int(fx - fw*pad_left), 0),
min(fx + int(fw*(1 + pad_right)), frame_w)]`. -/
def cropCols (padRight padLeft : ℚ) (frame_w fx fw : ℤ) : ℤ × ℤ :=
  (max (pyint ((fx : ℚ) - (fw : ℚ) * padLeft)) 0,
   min (fx + pyint ((fw : ℚ) * (1 + padRight))) frame_w)

/-- The `detect` method (lines 123-316), given the landmark provider's
output `faces` for one frame and the frame dimensions.  After the per-face
loop: when at least one face was found, the biggest face's box drives the
steering write and the crop; the returned `gaze_facing` and `saved_info`
are whatever the last loop iteration left behind.  With no faces,
`gaze_facing` is forced `false` and neither crop nor steering happens. -/
def detect (cfg : Config) (pose : FaceRec → ℚ × ℚ × ℚ)
    (pupilL pupilR : FaceRec → ℤ × ℤ) (frame_h frame_w : ℤ)
    (faces : List FaceRec) : Except Unit DetectRes :=
  match runFaces cfg pose pupilL pupilR faces 0 (0, 0) none with
  | .error e => .error e
  | .ok (st, last) =>
      if 0 < faces.length then
        let fb := (faces.getD st.1 dfltFace).box
        .ok ⟨(last.map FaceOut.gaze_facing).getD false, last,
          if cfg.crop_frame
            then some (cropRows cfg.pad_top cfg.pad_bottom frame_h fb.y fb.h)
            else none,
          if cfg.crop_frame
            then some (cropCols cfg.pad_right cfg.pad_left frame_w fb.x fb.w)
            else none,
          steerCommand cfg.print_on_serial cfg.serial_writing_step frame_w
            fb.x fb.w⟩
      else
        .ok ⟨false, last, none, none, none⟩

/-- A pose solver stub returning a frontal pose. -/
def pose0 : FaceRec → ℚ × ℚ × ℚ := fun _ => (0, 0, 0)

/-- A pose solver stub whose pitch and yaw echo the face's box x
coordinate (used to give different faces different poses). -/
def poseByX : FaceRec → ℚ × ℚ × ℚ := fun f => ((f.box.x : ℚ), (f.box.x : ℚ), 0)

/-- A pupil locator stub returning a fixed local coordinate. -/
def pupil53 : FaceRec → ℤ × ℤ := fun _ => (5, 3)

/-- Default-like configuration with pupil detection enabled. -/
def cfgPupil : Config := ⟨20, true, 0, 2, true, 5, true, 1/2, 0, 3/20, 0⟩

/-- Configuration with pupil detection disabled, cropping on, serial off. -/
def cfg8 : Config := ⟨20, false, 0, 2, false, 5, true, 1/2, 0, 3/20, 0⟩

/-- Configuration with pupil detection, cropping and serial all disabled. -/
def cfgPlain : Config := ⟨20, false, 0, 2, false, 5, false, 1/2, 0, 3/20, 0⟩

/-- A face whose left-eye inner and outer corners share the x coordinate
(degenerate landmarks: the left ratio denominator is zero). -/
def degenerateFace : FaceRec :=
  ⟨(50, 50), (50, 90), (40, 30), (40, 30), (40, 25), (40, 35), (80, 30),
   (100, 30), (90, 25), (90, 35), (40, 70), (60, 70), ⟨10, 10, 50, 50⟩⟩

/-- A face with well-separated eye corners (both ratio denominators
nonzero). -/
def intactFace : FaceRec :=
  ⟨(50, 50), (50, 90), (60, 30), (40, 30), (50, 25), (50, 35), (80, 30),
   (100, 30), (90, 25), (90, 35), (40, 70), (60, 70), ⟨10, 10, 40, 40⟩⟩

/-- A face with bounding box `(100, 50, 80, 60)`. -/
def face8 : FaceRec :=
  ⟨(140, 80), (140, 105), (160, 70), (145, 70), (152, 65), (152, 75),
   (110, 70), (125, 70), (117, 65), (117, 75), (125, 95), (155, 95),
   ⟨100, 50, 80, 60⟩⟩

/-- A large face at box x = 0 (frontal under `poseByX`). -/
def faceBig : FaceRec :=
  ⟨(45, 45), (45, 80), (60, 30), (40, 30), (50, 25), (50, 35), (10, 30),
   (30, 30), (20, 25), (20, 35), (35, 65), (55, 65), ⟨0, 0, 90, 90⟩⟩

/-- A small face at box x = 30 (turned away under `poseByX`). -/
def faceSmall : FaceRec :=
  ⟨(45, 45), (45, 80), (60, 30), (40, 30), (50, 25), (50, 35), (10, 30),
   (30, 30), (20, 25), (20, 35), (35, 65), (55, 65), ⟨30, 0, 10, 10⟩⟩

/-- Element of an area list at an index (0 past the end), mirroring
`areas[k]`. -/
def areaAt : List ℤ → ℕ → ℤ
  | [], _ => 0
  | a :: _, 0 => a
  | _ :: rest, k + 1 => areaAt rest k

/-- The `FaceOut` a face yields when its processing succeeds (a fixed
dummy otherwise; only used on faces known to succeed). -/
def faceOutD (cfg : Config) (pose : FaceRec → ℚ × ℚ × ℚ)
    (pupilL pupilR : FaceRec → ℤ × ℤ) (face : FaceRec) : FaceOut :=
  match processFace cfg pose pupilL pupilR face with
  | .ok out => out
  | .error _ => ⟨0, 0, 0, false, false, none, none⟩

/-- Last element of the face list, in the landmark provider's iteration
order. -/
def lastFace : List FaceRec → Option FaceRec
  | [] => none
  | [f] => some f
  | _ :: rest => lastFace rest

/-- Claim C1: for every face processed by `detect`, `face_facing` is true
iff both the absolute pitch and the absolute yaw are strictly below the
configured sensibility; at or beyond the threshold on either axis it is
false. -/
theorem face_facing_threshold_iff (sens pitch yaw : ℚ) :
    faceFacingOf sens pitch yaw = true ↔ (|pitch| < sens ∧ |yaw| < sens) := by
  simp [faceFacingOf]

/-- Claim C2: with pupil ratios available and `face_facing` true,
`gaze_facing` holds iff the larger absolute ratio is below the face
sensibility divided by the ratio-to-angle scale constant. -/
theorem gaze_facing_when_face_facing (sens pitch yaw rl rr : ℚ)
    (h : faceFacingOf sens pitch yaw = true) :
    gazeFacingOf sens pitch yaw rl rr = true ↔
      max (|rl|) (|rr|) < sens / EYE_RATIO_MULTIPLIER := by
  simp only [gazeFacingOf, h]
  split_ifs with hc <;> simp_all

theorem gaze_facing_when_face_facing_witness :
    faceFacingOf 20 0 0 = true ∧
    (gazeFacingOf 20 0 0 0 0 = true ↔
      max (|(0:ℚ)|) (|(0:ℚ)|) < 20 / EYE_RATIO_MULTIPLIER) :=
  ⟨rfl, gaze_facing_when_face_facing 20 0 0 0 0 rfl⟩

/-- Claim C3 counterexample: with face sensibility 20 (so the claimed bound
is 20/(2*100) = 1/10), ratios of 3/20 are at or above that bound, the face
is facing, and yet the code classifies the gaze as facing. -/
theorem gaze_half_bound_cex :
    faceFacingOf 20 0 0 = true ∧
    (20 : ℚ) / (2 * EYE_RATIO_MULTIPLIER) ≤ |(3/20 : ℚ)| ∧
    gazeFacingOf 20 0 0 (3/20) (3/20) = true := by
  refine ⟨rfl, by norm_num [EYE_RATIO_MULTIPLIER, abs_of_nonneg], ?_⟩
  norm_num [gazeFacingOf, faceFacingOf, EYE_RATIO_MULTIPLIER,
    GAZE_FACING_SENSIBILITY, abs_of_nonneg]

/-- Claim C3 as amended: with `face_facing` true, ratios within the closed
interval of radius sens/(2*M) give `gaze_facing = true`, and a ratio at or
above sens/M in absolute value gives `gaze_facing = false`. -/
theorem gaze_half_bound_amended (sens pitch yaw rl rr : ℚ)
    (h : faceFacingOf sens pitch yaw = true) :
    ((|rl| ≤ sens / (2 * EYE_RATIO_MULTIPLIER) ∧
      |rr| ≤ sens / (2 * EYE_RATIO_MULTIPLIER)) →
      gazeFacingOf sens pitch yaw rl rr = true) ∧
    ((sens / EYE_RATIO_MULTIPLIER ≤ |rl| ∨ sens / EYE_RATIO_MULTIPLIER ≤ |rr|) →
      gazeFacingOf sens pitch yaw rl rr = false) := by
  have hpy : |pitch| < sens ∧ |yaw| < sens := by
    have h2 := h; simp [faceFacingOf] at h2; exact h2
  have hs : 0 < sens := lt_of_le_of_lt (abs_nonneg pitch) hpy.1
  have hhalf : sens / (2 * EYE_RATIO_MULTIPLIER) < sens / EYE_RATIO_MULTIPLIER := by
    simp only [EYE_RATIO_MULTIPLIER]
    linarith
  constructor
  · rintro ⟨h1, h2⟩
    have hmax : max (|rl|) (|rr|) < sens / EYE_RATIO_MULTIPLIER :=
      max_lt (lt_of_le_of_lt h1 hhalf) (lt_of_le_of_lt h2 hhalf)
    simp [gazeFacingOf, h, hmax]
  · intro hge
    have hmax : sens / EYE_RATIO_MULTIPLIER ≤ max (|rl|) (|rr|) := by
      rcases hge with hge | hge
      · exact le_trans hge (le_max_left _ _)
      · exact le_trans hge (le_max_right _ _)
    simp [gazeFacingOf, h, not_lt.mpr hmax]

theorem gaze_half_bound_amended_witness :
    faceFacingOf 20 0 0 = true ∧
    (((|(0:ℚ)| ≤ 20 / (2 * EYE_RATIO_MULTIPLIER) ∧
       |(0:ℚ)| ≤ 20 / (2 * EYE_RATIO_MULTIPLIER)) →
       gazeFacingOf 20 0 0 0 0 = true) ∧
     ((20 / EYE_RATIO_MULTIPLIER ≤ |(0:ℚ)| ∨ 20 / EYE_RATIO_MULTIPLIER ≤ |(0:ℚ)|) →
       gazeFacingOf 20 0 0 0 0 = false)) :=
  ⟨rfl, gaze_half_bound_amended 20 0 0 0 0 rfl⟩

/-- Claim C4: with `face_facing` false, a left-turned head (yaw below zero)
is gaze-facing iff twice the absolute left ratio scaled by the multiplier
approximately cancels the yaw (within the gaze sensibility); symmetrically
with the right ratio for yaw above zero; at yaw = -30 this means the
absolute left ratio lies strictly between 1/8 and 7/40. -/
theorem gaze_turned_head (sens pitch yaw rl rr : ℚ)
    (h : faceFacingOf sens pitch yaw = false) :
    (yaw < 0 → (gazeFacingOf sens pitch yaw rl rr = true ↔
      abs (2 * |rl| * EYE_RATIO_MULTIPLIER - |yaw|) < GAZE_FACING_SENSIBILITY)) ∧
    (0 < yaw → (gazeFacingOf sens pitch yaw rl rr = true ↔
      abs (2 * |rr| * EYE_RATIO_MULTIPLIER - |yaw|) < GAZE_FACING_SENSIBILITY)) ∧
    (yaw = -30 → (gazeFacingOf sens pitch yaw rl rr = true ↔
      (1/8 < |rl| ∧ |rl| < 7/40))) := by
  have p1 : yaw < 0 → (gazeFacingOf sens pitch yaw rl rr = true ↔
      abs (2 * |rl| * EYE_RATIO_MULTIPLIER - |yaw|) < GAZE_FACING_SENSIBILITY) := by
    intro hy
    have hny : ¬ (0 < yaw) := not_lt.mpr hy.le
    simp only [gazeFacingOf, h]
    split_ifs with hc1 hc2 <;> simp_all
  have p2 : 0 < yaw → (gazeFacingOf sens pitch yaw rl rr = true ↔
      abs (2 * |rr| * EYE_RATIO_MULTIPLIER - |yaw|) < GAZE_FACING_SENSIBILITY) := by
    intro hy
    have hny : ¬ (yaw < 0) := not_lt.mpr hy.le
    simp only [gazeFacingOf, h]
    split_ifs with hc1 hc2 <;> simp_all
  refine ⟨p1, p2, ?_⟩
  intro hy
  rw [p1 (by rw [hy]; norm_num)]
  rw [hy]
  rw [show |(-30 : ℚ)| = 30 by norm_num]
  simp only [EYE_RATIO_MULTIPLIER, GAZE_FACING_SENSIBILITY]
  rw [abs_lt]
  constructor
  · rintro ⟨ha, hb⟩; constructor <;> linarith
  · rintro ⟨ha, hb⟩; constructor <;> linarith

theorem gaze_turned_head_witness :
    faceFacingOf 20 0 (-30) = false ∧
    (((-30 : ℚ) < 0 → (gazeFacingOf 20 0 (-30) (3/20) 0 = true ↔
       abs (2 * |(3/20 : ℚ)| * EYE_RATIO_MULTIPLIER - |(-30 : ℚ)|) < GAZE_FACING_SENSIBILITY)) ∧
     ((0 : ℚ) < -30 → (gazeFacingOf 20 0 (-30) (3/20) 0 = true ↔
       abs (2 * |(0 : ℚ)| * EYE_RATIO_MULTIPLIER - |(-30 : ℚ)|) < GAZE_FACING_SENSIBILITY)) ∧
     ((-30 : ℚ) = -30 → (gazeFacingOf 20 0 (-30) (3/20) 0 = true ↔
       (1/8 < |(3/20 : ℚ)| ∧ |(3/20 : ℚ)| < 7/40)))) :=
  ⟨rfl, gaze_turned_head 20 0 (-30) (3/20) 0 rfl⟩

/-- Claim C5 evaluation: on a frame with two faces whose first has equal
left-eye corner x coordinates, `detect` aborts with the division error and
produces nothing at all -- the second face, which on its own would process
fine, is never classified, and not even the failing face's `face_facing`
is reported. -/
theorem ratio_divide_by_zero_aborts_frame :
    degenerateFace.eye_l_out.1 = degenerateFace.eye_l_in.1 ∧
    (processFace cfgPupil pose0 pupil53 pupil53 intactFace).toOption.isSome = true ∧
    detect cfgPupil pose0 pupil53 pupil53 480 640 [degenerateFace, intactFace] =
      .error () :=
  ⟨rfl, rfl, rfl⟩

/-- Claim C7: an empty face sequence makes `detect` return with
`gaze_facing` forced false, no saved info, no crop rectangle and no
steering command, for every configuration and frame size. -/
theorem empty_faces_detect (cfg : Config) (pose : FaceRec → ℚ × ℚ × ℚ)
    (pupilL pupilR : FaceRec → ℤ × ℤ) (frame_h frame_w : ℤ) :
    detect cfg pose pupilL pupilR frame_h frame_w [] =
      .ok ⟨false, none, none, none, none⟩ := rfl

/-- Claim C8: for the dominant face box `(100, 50, 80, 60)` in a 640x480
frame with paddings `(0.5, 0, 0.15, 0)`, the crop is exactly rows
`[20, 119]` and columns `[100, 180]`, and these values agree with the
clamped padding formula. -/
theorem crop_rect_concrete :
    detect cfg8 pose0 pupil53 pupil53 480 640 [face8] =
      .ok ⟨true, some ⟨0, 0, 0, true, true, none, none⟩, some (20, 119),
           some (100, 180), none⟩ ∧
    ((20 : ℚ) = max ((50 : ℚ) - 60 * (1/2)) 0 ∧
     (119 : ℚ) = min ((50 : ℚ) + 60 * (1 + 3/20)) 480 ∧
     (100 : ℚ) = max ((100 : ℚ) - 80 * 0) 0 ∧
     (180 : ℚ) = min ((100 : ℚ) + 80 * (1 + 0)) 640) := by
  constructor
  · norm_num [detect, runFaces, processFace, faceFacingOf, cropRows, cropCols,
      pyint, steerCommand, cfg8, face8, pose0, pupil53]
  · norm_num [max_def, min_def]

/-- Claim C9: with serial printing on and a positive step, `detect`'s
steering logic emits the negated step exactly when the face center is left
of the dead zone, the step exactly when it is right of it, and nothing when
it is inside; concretely in a 640-wide frame, face centers 50, 550 and 320
give the negated step, the step, and nothing. -/
theorem steering_spec (step : ℚ) (frame_w fx fw : ℤ) (hstep : 0 < step) :
    (steerCommand true step frame_w fx fw = some (-step) ↔
      (fx : ℚ) + (fw : ℚ) / 2 < (frame_w : ℚ) / 2 - 200) ∧
    (steerCommand true step frame_w fx fw = some step ↔
      (frame_w : ℚ) / 2 + 200 < (fx : ℚ) + (fw : ℚ) / 2) ∧
    (steerCommand true step frame_w fx fw = none ↔
      ((frame_w : ℚ) / 2 - 200 ≤ (fx : ℚ) + (fw : ℚ) / 2 ∧
       (fx : ℚ) + (fw : ℚ) / 2 ≤ (frame_w : ℚ) / 2 + 200)) ∧
    steerCommand true step 640 10 80 = some (-step) ∧
    steerCommand true step 640 510 80 = some step ∧
    steerCommand true step 640 280 80 = none := by
  have hne : ¬ (step = -step) := by intro he; linarith
  have hne2 : ¬ (-step = step) := by intro he; linarith
  refine ⟨?_, ?_, ?_, ?_, ?_, ?_⟩
  · unfold steerCommand
    split_ifs with h1 h2 <;> simp_all
  · unfold steerCommand
    split_ifs with h1 h2 <;> simp_all <;> linarith
  · unfold steerCommand
    split_ifs with h1 h2 <;> simp_all <;>
      first
      | (constructor <;> linarith)
      | (intro ha; linarith)
  · norm_num [steerCommand]
  · norm_num [steerCommand]
  · norm_num [steerCommand]

theorem steering_spec_witness :
    (0 : ℚ) < 5 ∧
    ((steerCommand true 5 640 10 80 = some (-5) ↔
      (10 : ℚ) + (80 : ℚ) / 2 < (640 : ℚ) / 2 - 200) ∧
     (steerCommand true 5 640 10 80 = some 5 ↔
      (640 : ℚ) / 2 + 200 < (10 : ℚ) + (80 : ℚ) / 2) ∧
     (steerCommand true 5 640 10 80 = none ↔
      ((640 : ℚ) / 2 - 200 ≤ (10 : ℚ) + (80 : ℚ) / 2 ∧
       (10 : ℚ) + (80 : ℚ) / 2 ≤ (640 : ℚ) / 2 + 200)) ∧
     steerCommand true 5 640 10 80 = some (-5) ∧
     steerCommand true 5 640 510 80 = some 5 ∧
     steerCommand true 5 640 280 80 = none) := by
  refine ⟨by norm_num, ?_⟩
  have h := steering_spec 5 640 10 80 (by norm_num)
  norm_num at h ⊢
  exact h

theorem areaAt_mem (l : List ℤ) (k : ℕ) (hk : k < l.length) : areaAt l k ∈ l := by
  induction l generalizing k with
  | nil => simp at hk
  | cons a rest ih =>
    cases k with
    | zero => simp [areaAt]
    | succ k2 =>
      simp only [areaAt, List.mem_cons]
      exact Or.inr (ih k2 (by simpa using hk))

theorem selectBiggest_spec (l : List ℤ) : ∀ (i : ℕ) (st : ℕ × ℤ),
    (selectBiggest l i st = st ∧ ∀ a ∈ l, a ≤ st.2) ∨
    (∃ j, j < l.length ∧ (selectBiggest l i st).1 = i + j ∧
      (selectBiggest l i st).2 = areaAt l j ∧ st.2 < areaAt l j ∧
      (∀ k, k < l.length → areaAt l k ≤ areaAt l j) ∧
      (∀ k, k < j → areaAt l k < areaAt l j)) := by
  induction l with
  | nil =>
    intro i st
    left
    exact ⟨rfl, by simp⟩
  | cons a rest ih =>
    intro i st
    by_cases hlt : st.2 < a
    · have hstep : selectBiggest (a :: rest) i st = selectBiggest rest (i + 1) (i, a) := by
        simp [selectBiggest, hlt]
      rcases ih (i + 1) (i, a) with ⟨heq, hall⟩ | ⟨j, hjlen, h1, h2, h3, h4, h5⟩
      · right
        refine ⟨0, by simp, ?_, ?_, hlt, ?_, ?_⟩
        · rw [hstep, heq]; rfl
        · rw [hstep, heq]; rfl
        · intro k hk
          cases k with
          | zero => exact le_refl _
          | succ k2 =>
            exact hall _ (areaAt_mem rest k2 (by simpa using hk))
        · intro k hk; omega
      · right
        refine ⟨j + 1, by simpa using hjlen, ?_, ?_, lt_trans hlt h3, ?_, ?_⟩
        · rw [hstep, h1]; omega
        · rw [hstep, h2]; rfl
        · intro k hk
          cases k with
          | zero => exact le_of_lt h3
          | succ k2 => exact h4 k2 (by simpa using hk)
        · intro k hk
          cases k with
          | zero => exact h3
          | succ k2 => exact h5 k2 (by omega)
    · have hstep : selectBiggest (a :: rest) i st = selectBiggest rest (i + 1) st := by
        simp [selectBiggest, hlt]
      rcases ih (i + 1) st with ⟨heq, hall⟩ | ⟨j, hjlen, h1, h2, h3, h4, h5⟩
      · left
        refine ⟨by rw [hstep, heq], ?_⟩
        intro b hb
        rcases List.mem_cons.mp hb with hb | hb
        · rw [hb]; exact le_of_not_lt hlt
        · exact hall b hb
      · right
        refine ⟨j + 1, by simpa using hjlen, ?_, ?_, h3, ?_, ?_⟩
        · rw [hstep, h1]; omega
        · rw [hstep, h2]; rfl
        · intro k hk
          cases k with
          | zero => exact le_trans (le_of_not_lt hlt) (le_of_lt h3)
          | succ k2 => exact h4 k2 (by simpa using hk)
        · intro k hk
          cases k with
          | zero => exact lt_of_le_of_lt (le_of_not_lt hlt) h3
          | succ k2 => exact h5 k2 (by omega)

/-- Claim C6: on a non-empty face list with nonnegative box areas, the
selector's index is in range, its face's area is maximal, and any face of
equal area has an index at least as large (ties go to the lowest index);
concretely, areas `[100, 400, 400]` select index 1. -/
theorem dominant_face_selector_spec (faces : List FaceRec) (hne : faces ≠ [])
    (h0 : ∀ f ∈ faces, 0 ≤ f.box.w * f.box.h) :
    (biggest_face_index (faceAreas faces) < faces.length ∧
     (∀ k, k < faces.length →
        areaAt (faceAreas faces) k ≤
          areaAt (faceAreas faces) (biggest_face_index (faceAreas faces))) ∧
     (∀ k, k < faces.length →
        areaAt (faceAreas faces) k =
          areaAt (faceAreas faces) (biggest_face_index (faceAreas faces)) →
        biggest_face_index (faceAreas faces) ≤ k)) ∧
    biggest_face_index [100, 400, 400] = 1 := by
  refine ⟨?_, rfl⟩
  have hlen : (faceAreas faces).length = faces.length := List.length_map _ _
  have h0' : ∀ a ∈ faceAreas faces, 0 ≤ a := by
    intro a ha
    obtain ⟨f, hf, rfl⟩ := List.mem_map.mp ha
    exact h0 f hf
  have hlenpos : 0 < faces.length := List.length_pos.mpr hne
  rcases selectBiggest_spec (faceAreas faces) 0 (0, 0) with ⟨heq, hall⟩ | ⟨j, hjlen, h1, h2, h3, h4, h5⟩
  · have hidx : biggest_face_index (faceAreas faces) = 0 := by
      exact congrArg Prod.fst heq
    have hzero : ∀ a ∈ faceAreas faces, a = 0 := fun a ha =>
      le_antisymm (hall a ha) (h0' a ha)
    refine ⟨by rw [hidx]; exact hlenpos, ?_, ?_⟩
    · intro k hk
      rw [hidx]
      rw [hzero _ (areaAt_mem _ k (by rwa [hlen])),
        hzero _ (areaAt_mem _ 0 (by rwa [hlen]))]
    · intro k _ _
      rw [hidx]
      exact Nat.zero_le k
  · have hidx : biggest_face_index (faceAreas faces) = j := by
      have h6 := h1
      rw [Nat.zero_add] at h6
      exact h6
    refine ⟨by rw [hidx]; rwa [hlen] at hjlen, ?_, ?_⟩
    · intro k hk
      rw [hidx]
      exact h4 k (by rwa [hlen])
    · intro k hk hek
      rw [hidx]
      by_contra hlt2
      have := h5 k (by omega)
      rw [hidx] at hek
      omega


theorem dominant_face_selector_spec_witness :
    (biggest_face_index (faceAreas [faceBig, faceSmall]) < [faceBig, faceSmall].length ∧
     (∀ k, k < [faceBig, faceSmall].length →
        areaAt (faceAreas [faceBig, faceSmall]) k ≤
          areaAt (faceAreas [faceBig, faceSmall])
            (biggest_face_index (faceAreas [faceBig, faceSmall]))) ∧
     (∀ k, k < [faceBig, faceSmall].length →
        areaAt (faceAreas [faceBig, faceSmall]) k =
          areaAt (faceAreas [faceBig, faceSmall])
            (biggest_face_index (faceAreas [faceBig, faceSmall])) →
        biggest_face_index (faceAreas [faceBig, faceSmall]) ≤ k)) ∧
    biggest_face_index [100, 400, 400] = 1 :=
  dominant_face_selector_spec [faceBig, faceSmall] (by simp) (by decide)

theorem lastFace_isSome (l : List FaceRec) (h : l ≠ []) : ∃ f, lastFace l = some f := by
  induction l with
  | nil => exact absurd rfl h
  | cons a rest ih =>
    cases rest with
    | nil => exact ⟨a, rfl⟩
    | cons b t =>
      obtain ⟨f, hf⟩ := ih (by simp)
      exact ⟨f, hf⟩

theorem runFaces_ok (cfg : Config) (pose : FaceRec → ℚ × ℚ × ℚ)
    (pupilL pupilR : FaceRec → ℤ × ℤ) (l : List FaceRec) :
    ∀ (i : ℕ) (st : ℕ × ℤ) (last : Option FaceOut),
    (∀ f ∈ l, (processFace cfg pose pupilL pupilR f).toOption.isSome = true) →
    runFaces cfg pose pupilL pupilR l i st last =
      .ok (selectBiggest (faceAreas l) i st,
        (lastFace l).elim last (fun f => some (faceOutD cfg pose pupilL pupilR f))) := by
  induction l with
  | nil => intro i st last _; rfl
  | cons f rest ih =>
    intro i st last hok
    have hf := hok f (List.mem_cons_self f rest)
    obtain ⟨out, hout⟩ : ∃ out, processFace cfg pose pupilL pupilR f = .ok out := by
      cases hpf : processFace cfg pose pupilL pupilR f with
      | ok o => exact ⟨o, rfl⟩
      | error e => rw [hpf] at hf; simp [Except.toOption] at hf
    have hrest : ∀ g ∈ rest, (processFace cfg pose pupilL pupilR g).toOption.isSome = true :=
      fun g hg => hok g (List.mem_cons_of_mem f hg)
    have hstep : runFaces cfg pose pupilL pupilR (f :: rest) i st last =
        runFaces cfg pose pupilL pupilR rest (i + 1)
          (if st.2 < f.box.w * f.box.h then (i, f.box.w * f.box.h) else st) (some out) := by
      simp only [runFaces, hout]
    rw [hstep, ih (i + 1) _ (some out) hrest]
    have hsel : selectBiggest (faceAreas (f :: rest)) i st =
        selectBiggest (faceAreas rest) (i + 1)
          (if st.2 < f.box.w * f.box.h then (i, f.box.w * f.box.h) else st) := by
      simp [faceAreas, selectBiggest]
    rw [← hsel]
    cases rest with
    | nil =>
      simp [lastFace, faceOutD, hout]
    | cons g t =>
      obtain ⟨lf, hlf⟩ := lastFace_isSome (g :: t) (by simp)
      have : lastFace (f :: g :: t) = lastFace (g :: t) := rfl
      rw [this, hlf]
      simp

/-- Claim C10: on a frame with at least one face (all processing
successfully), the `gaze_facing` boolean and the diagnostic record returned
by `detect` are those of the LAST face in iteration order, while the crop
rectangle and the steering command are computed from the dominant
(biggest-area) face's box alone. -/
theorem last_face_wins (cfg : Config) (pose : FaceRec → ℚ × ℚ × ℚ)
    (pupilL pupilR : FaceRec → ℤ × ℤ) (frame_h frame_w : ℤ)
    (faces : List FaceRec) (hne : faces ≠ [])
    (hok : ∀ f ∈ faces, (processFace cfg pose pupilL pupilR f).toOption.isSome = true) :
    ∃ lastF, lastFace faces = some lastF ∧
      detect cfg pose pupilL pupilR frame_h frame_w faces =
        .ok ⟨(faceOutD cfg pose pupilL pupilR lastF).gaze_facing,
             some (faceOutD cfg pose pupilL pupilR lastF),
             (if cfg.crop_frame then
               some (cropRows cfg.pad_top cfg.pad_bottom frame_h
                 ((faces.getD (biggest_face_index (faceAreas faces)) dfltFace).box.y)
                 ((faces.getD (biggest_face_index (faceAreas faces)) dfltFace).box.h))
              else none),
             (if cfg.crop_frame then
               some (cropCols cfg.pad_right cfg.pad_left frame_w
                 ((faces.getD (biggest_face_index (faceAreas faces)) dfltFace).box.x)
                 ((faces.getD (biggest_face_index (faceAreas faces)) dfltFace).box.w))
              else none),
             steerCommand cfg.print_on_serial cfg.serial_writing_step frame_w
               ((faces.getD (biggest_face_index (faceAreas faces)) dfltFace).box.x)
               ((faces.getD (biggest_face_index (faceAreas faces)) dfltFace).box.w)⟩ := by
  obtain ⟨lf, hlf⟩ := lastFace_isSome faces hne
  refine ⟨lf, hlf, ?_⟩
  unfold detect
  rw [runFaces_ok cfg pose pupilL pupilR faces 0 (0, 0) none hok, hlf]
  simp only [Option.elim]
  rw [if_pos (List.length_pos.mpr hne)]
  rfl

theorem last_face_wins_witness :
    ([faceBig, faceSmall] ≠ [] ∧
     (∀ f ∈ [faceBig, faceSmall],
       (processFace cfgPlain poseByX pupil53 pupil53 f).toOption.isSome = true)) ∧
    ∃ lastF, lastFace [faceBig, faceSmall] = some lastF ∧
      detect cfgPlain poseByX pupil53 pupil53 480 640 [faceBig, faceSmall] =
        .ok ⟨(faceOutD cfgPlain poseByX pupil53 pupil53 lastF).gaze_facing,
             some (faceOutD cfgPlain poseByX pupil53 pupil53 lastF),
             (if cfgPlain.crop_frame then
               some (cropRows cfgPlain.pad_top cfgPlain.pad_bottom 480
                 (([faceBig, faceSmall].getD
                     (biggest_face_index (faceAreas [faceBig, faceSmall])) dfltFace).box.y)
                 (([faceBig, faceSmall].getD
                     (biggest_face_index (faceAreas [faceBig, faceSmall])) dfltFace).box.h))
              else none),
             (if cfgPlain.crop_frame then
               some (cropCols cfgPlain.pad_right cfgPlain.pad_left 640
                 (([faceBig, faceSmall].getD
                     (biggest_face_index (faceAreas [faceBig, faceSmall])) dfltFace).box.x)
                 (([faceBig, faceSmall].getD
                     (biggest_face_index (faceAreas [faceBig, faceSmall])) dfltFace).box.w))
              else none),
             steerCommand cfgPlain.print_on_serial cfgPlain.serial_writing_step 640
               (([faceBig, faceSmall].getD
                   (biggest_face_index (faceAreas [faceBig, faceSmall])) dfltFace).box.x)
               (([faceBig, faceSmall].getD
                   (biggest_face_index (faceAreas [faceBig, faceSmall])) dfltFace).box.w)⟩ :=
  ⟨⟨by simp, by decide⟩,
   last_face_wins cfgPlain poseByX pupil53 pupil53 480 640 [faceBig, faceSmall]
     (by simp) (by decide)⟩
